import Mathlib

/-!
Verification of `load_saved_calculation.py` (qntenna repository).

The script loads a saved calculation from a directory of whitespace-delimited
numeric text files and displays a normalized heatmap slice of the 3D `Delta`
grid together with a normalized spectrum panel.

Embedding conventions:
* Numeric file contents are modelled at the level of parsed values, as
  rational numbers (`ℚ`); a 1D axis file is a `List ℚ` and a 2D table is a
  `List (List ℚ)`.
* The filesystem is a partial map from path strings to parsed directory
  contents (`String → Option DirData`); `os.path.exists` is `Option`
  matching and `os.path.join` is string concatenation with a separator.
* `np.searchsorted(w, v)` (default `side='left'`) on a sorted array returns
  the left insertion index, i.e. the number of elements strictly below `v`.
* `np.max` over a nonempty array is the fold of `max`; Python list indexing
  that can raise `IndexError` is modelled with `Option` (`List.get?`).
-/

/-- Embeds `np.max` of a 1D array, as a fold of `max` over the list of values.
Note `np.max` of an empty array is an error in numpy; the `[]` case here is a
placeholder value that claims about `np.max` never rely on. -/
def listMax : List ℚ → ℚ
  | [] => 0
  | [x] => x
  | x :: y :: rest => max x (listMax (y :: rest))

/-- Embeds `np.min` of a 1D array, as a fold of `min` over the list of values. -/
def listMin : List ℚ → ℚ
  | [] => 0
  | [x] => x
  | x :: y :: rest => min x (listMin (y :: rest))

/-- Embeds `np.searchsorted(w, v)` with the default `side='left'`: on a sorted
array it returns the left insertion index of `v`, which is the number of
elements of `w` strictly less than `v`. -/
def searchsorted (w : List ℚ) (v : ℚ) : Nat :=
  w.countP (fun x => decide (x < v))

/-- A parsed 2D numeric table (one text file loaded by `np.loadtxt`). -/
abbrev Mat := List (List ℚ)

/-- Element `m[r][c]` of a parsed 2D table, with a default of `0` out of range
(in-range claims never rely on the default). -/
def entry (m : Mat) (r c : Nat) : ℚ :=
  (m.getD r []).getD c 0

/-- The parsed contents of one saved-calculation directory: the three axis
files `l0.txt`, `dl.txt`, `w.txt`, the `spectrum.txt` table, and the family
of slice files `Delta_i.txt` (indexed by `i`). -/
structure DirData where
  l0 : List ℚ
  dl : List ℚ
  w : List ℚ
  spectrum : Mat
  slices : Nat → Mat

/-- The in-memory result of `load_calculated_data`: the axis vectors, the
recorded dimensions `rows = dl.size`, `cols = l0.size`, `N = w.size`, and
the 3D array `Delta` indexed `[row, column, tertiary]`. -/
structure CalcData where
  l0 : List ℚ
  dl : List ℚ
  w : List ℚ
  rows : Nat
  cols : Nat
  N : Nat
  Delta : Nat → Nat → Nat → ℚ

/-- One loop iteration `Delta[:,:,i] = np.loadtxt(...)`: overwrite the `i`-th
tertiary slice of the 3D array with the parsed table `m`. -/
def setSlice (g : Nat → Nat → Nat → ℚ) (m : Mat) (i : Nat) :
    Nat → Nat → Nat → ℚ :=
  fun r c k => if k = i then entry m r c else g r c k

/-- Embeds `Delta = np.zeros((rows, cols, N))` followed by the loop
`for i in range(N): Delta[:,:,i] = np.loadtxt('Delta_i.txt')`. -/
def buildDelta (slices : Nat → Mat) (N : Nat) : Nat → Nat → Nat → ℚ :=
  (List.range N).foldl (fun g i => setSlice g (slices i) i) (fun _ _ _ => 0)

/-- Embeds `os.path.join` of two path components. -/
def pathJoin (a b : String) : String := a ++ "/" ++ b

/-- The body of `load_calculated_data` after directory resolution: parse the
axis files, the spectrum and the `N = w.size` slice files into a `CalcData`
paired with the spectrum table. -/
def loadDir (d : DirData) : CalcData × Mat :=
  ({ l0 := d.l0, dl := d.dl, w := d.w,
     rows := d.dl.length, cols := d.l0.length, N := d.w.length,
     Delta := buildDelta d.slices d.w.length }, d.spectrum)

/-- Embeds `load_calculated_data(directory)`: if `directory` exists load it; else if
`join('calculations', directory)` exists load that; else report the error and
return nothing (`return` with no value in Python). -/
def load_calculated_data (fs : String → Option DirData) (directory : String) :
    Option (CalcData × Mat) :=
  match fs directory with
  | some d => some (loadDir d)
  | none =>
    match fs (pathJoin "calculations" directory) with
    | some d => some (loadDir d)
    | none => none

/-- Embeds `display_width`: the requested tertiary value `args.width`, defaulting to
`np.max(w)` when the flag is absent. -/
def display_width (argsWidth : Option ℚ) (w : List ℚ) : ℚ :=
  match argsWidth with
  | none => listMax w
  | some x => x

/-- The 2D slice `Delta[:,:,i]` of a loaded grid, materialized over the
recorded `rows × cols` index ranges. -/
def extractSlice (cd : CalcData) (i : Nat) : Mat :=
  (List.range cd.rows).map fun r =>
    (List.range cd.cols).map fun c => cd.Delta r c i

/-- Embeds `np.max` over a 2D array: the maximum of all its elements. -/
def matMax (m : Mat) : ℚ := listMax m.flatten

/-- Embeds `d = Delta[:,:,wi]/np.max(Delta[:,:,wi])`: the displayed slice,
normalized by its own maximum. -/
def normalizeSlice (m : Mat) : Mat :=
  m.map fun row => row.map fun x => x / matMax m

/-- Embeds the palette `clrs = ['C0', 'C1', 'C2', 'C3', 'C4', 'C5']`. -/
def clrs : List String := ["C0", "C1", "C2", "C3", "C4", "C5"]

/-- Lookup `clrs[j]` as used in the per-peak plotting loops: a Python list index,
`none` when the index is out of range (an `IndexError`). -/
def colorAt (j : Nat) : Option String := clrs.get? j

/-- Column `spectrum[:,1]`: the intensity column of the spectrum table. -/
def col1 (spectrum : Mat) : List ℚ :=
  spectrum.map fun row => row.getD 1 0

/-- Embeds `spectrum[:,1]/np.max(spectrum[:,1])`: the normalized spectrum curve. -/
def normalizedSpectrum (spectrum : Mat) : List ℚ :=
  (col1 spectrum).map fun x => x / listMax (col1 spectrum)

/-- A concrete saved-calculation directory with integer-valued contents,
used to exercise the loader on explicit data. -/
def exDir : DirData :=
  { l0 := [1, 2, 3], dl := [10, 20], w := [1, 2],
    spectrum := [[400, 5], [500, 7]],
    slices := fun i => if i = 0 then [[1, 2, 3], [4, 5, 6]]
              else [[7, 8, 9], [10, 11, 12]] }

/-- A concrete filesystem containing `exDir` under the name `calc1`. -/
def exFs : String → Option DirData :=
  fun s => if s = "calc1" then some exDir else none

/-- A concrete filesystem in which the directory `auto` is present only
under the `calculations` fallback root. -/
def exFsFallback : String → Option DirData :=
  fun s => if s = "calculations/auto" then some exDir else none

/-- An empty filesystem: no directory resolves anywhere. -/
def exFsEmpty : String → Option DirData := fun _ => none

/-- The spec's concrete scenario directory: axes `l0=[1,2,3]`, `dl=[10,20]`,
`w=[0.5,1.0]`, with two distinct `2×3` slice matrices. -/
def scenarioDir : DirData :=
  { l0 := [1, 2, 3], dl := [10, 20], w := [1/2, 1],
    spectrum := [[400, 5], [500, 7]],
    slices := fun i => if i = 0 then [[1, 2, 3], [4, 5, 6]]
              else [[7, 8, 9], [10, 11, 12]] }

/-- A concrete loaded grid whose `Delta` array is identically zero, used to
exhibit the vanishing normalization divisor. -/
def zeroCalc : CalcData :=
  { l0 := [1, 2], dl := [3, 4], w := [5],
    rows := 2, cols := 2, N := 1, Delta := fun _ _ _ => 0 }

theorem listMax_cons_cons (x y : ℚ) (rest : List ℚ) :
    listMax (x :: y :: rest) = max x (listMax (y :: rest)) := rfl

theorem listMin_cons_cons (x y : ℚ) (rest : List ℚ) :
    listMin (x :: y :: rest) = min x (listMin (y :: rest)) := rfl

theorem listMax_mem : ∀ (l : List ℚ), l ≠ [] → listMax l ∈ l
  | [], h => absurd rfl h
  | [x], _ => by simp [listMax]
  | x :: y :: rest, _ => by
    rw [listMax_cons_cons]
    rcases le_total x (listMax (y :: rest)) with h | h
    · rw [max_eq_right h]
      exact List.mem_cons_of_mem _ (listMax_mem (y :: rest) (by simp))
    · rw [max_eq_left h]
      exact List.mem_cons_self x _

theorem le_listMax : ∀ {x : ℚ} {l : List ℚ}, x ∈ l → x ≤ listMax l
  | x, [], h => absurd h (List.not_mem_nil x)
  | x, [y], h => by
    rcases List.mem_singleton.mp h with rfl
    simp [listMax]
  | x, y :: z :: rest, h => by
    rw [listMax_cons_cons]
    rcases List.mem_cons.mp h with rfl | h'
    · exact le_max_left _ _
    · exact le_trans (le_listMax h') (le_max_right _ _)

theorem listMin_le : ∀ {x : ℚ} {l : List ℚ}, x ∈ l → listMin l ≤ x
  | x, [], h => absurd h (List.not_mem_nil x)
  | x, [y], h => by
    rcases List.mem_singleton.mp h with rfl
    simp [listMin]
  | x, y :: z :: rest, h => by
    rw [listMin_cons_cons]
    rcases List.mem_cons.mp h with rfl | h'
    · exact min_le_left _ _
    · exact le_trans (min_le_right _ _) (listMin_le h')

theorem listMax_map_div : ∀ (l : List ℚ) {M : ℚ}, 0 < M →
    listMax (l.map fun x => x / M) = listMax l / M
  | [], M, _ => by simp [listMax]
  | [x], M, _ => by simp [listMax]
  | x :: y :: rest, M, hM => by
    have ih := listMax_map_div (y :: rest) hM
    simp only [List.map_cons] at ih ⊢
    rw [listMax_cons_cons, listMax_cons_cons, ih, max_div_div_right hM.le]

theorem listMax_eq_zero : ∀ (l : List ℚ), (∀ x ∈ l, x = 0) → listMax l = 0
  | [], _ => rfl
  | [x], h => by simpa [listMax] using h x (by simp)
  | x :: y :: rest, h => by
    rw [listMax_cons_cons, h x (by simp),
      listMax_eq_zero (y :: rest) fun z hz => h z (List.mem_cons_of_mem _ hz)]
    simp

theorem buildDelta_eq {N : Nat} (slices : Nat → Mat) (r c i : Nat) (h : i < N) :
    buildDelta slices N r c i = entry (slices i) r c := by
  induction N with
  | zero => omega
  | succ n ih =>
    have hstep : buildDelta slices (n + 1) =
        setSlice (buildDelta slices n) (slices n) n := by
      unfold buildDelta
      rw [List.range_succ, List.foldl_append, List.foldl_cons, List.foldl_nil]
    rw [hstep]
    simp only [setSlice]
    by_cases hi : i = n
    · subst hi; simp
    · simp only [hi, if_false]
      exact ih (by omega)

theorem searchsorted_gt_max (w : List ℚ) (v : ℚ) (h : listMax w < v) :
    searchsorted w v = w.length := by
  unfold searchsorted
  rw [List.countP_eq_length]
  intro x hx
  exact decide_eq_true (lt_of_le_of_lt (le_listMax hx) h)

theorem searchsorted_lt_min (w : List ℚ) (v : ℚ) (h : v < listMin w) :
    searchsorted w v = 0 := by
  unfold searchsorted
  rw [List.countP_eq_zero]
  intro x hx hd
  exact absurd (lt_trans (of_decide_eq_true hd) (lt_of_lt_of_le h (listMin_le hx)))
    (lt_irrefl x)

theorem searchsorted_of_listMax : ∀ (w : List ℚ), w.Sorted (· < ·) → w ≠ [] →
    searchsorted w (listMax w) = w.length - 1
  | [], _, h => absurd rfl h
  | [x], _, _ => by simp [searchsorted, listMax, List.countP_cons]
  | x :: y :: rest, hs, _ => by
    have hx : ∀ b ∈ y :: rest, x < b := (List.sorted_cons.mp hs).1
    have hs' : (y :: rest).Sorted (· < ·) := (List.sorted_cons.mp hs).2
    have hxm : x < listMax (y :: rest) :=
      hx _ (listMax_mem (y :: rest) (by simp))
    have hmax : listMax (x :: y :: rest) = listMax (y :: rest) := by
      rw [listMax_cons_cons, max_eq_right hxm.le]
    have ih := searchsorted_of_listMax (y :: rest) hs' (by simp)
    unfold searchsorted at ih ⊢
    rw [hmax, List.countP_cons, ih]
    simp [hxm]

theorem extractSlice_loadDir (d : DirData) (i : Nat) (hi : i < d.w.length)
    (hrows : (d.slices i).length = d.dl.length)
    (hcols : ∀ row ∈ d.slices i, row.length = d.l0.length) :
    extractSlice (loadDir d).1 i = d.slices i := by
  unfold extractSlice loadDir
  simp only
  apply List.ext_getElem
  · simp [hrows]
  · intro r h1 h2
    rw [List.getElem_map, List.getElem_range]
    apply List.ext_getElem
    · simp [hcols _ (List.getElem_mem h2)]
    · intro c hc1 hc2
      rw [List.getElem_map, List.getElem_range]
      rw [buildDelta_eq d.slices r c i hi]
      unfold entry
      rw [List.getD_eq_getElem _ _ h2, List.getD_eq_getElem _ _ hc2]

/-- C2: for every valid directory whose axis files have sizes `|l0| = cols`,
`|dl| = rows`, `|w| = N` and whose `N` slice files each parse as a
`rows × cols` table, `load_calculated_data` returns a grid of shape
`(rows, cols, N)` in which, for every `i < N`, re-extracting the 2D slice at
tertiary index `i` reproduces exactly the values parsed from file `Delta_i`. -/
theorem load_roundtrip (fs : String → Option DirData) (name : String)
    (d : DirData) (hfs : fs name = some d)
    (hshape : ∀ i, i < d.w.length → (d.slices i).length = d.dl.length ∧
      ∀ row ∈ d.slices i, row.length = d.l0.length) :
    ∃ cd : CalcData, load_calculated_data fs name = some (cd, d.spectrum) ∧
      cd.rows = d.dl.length ∧ cd.cols = d.l0.length ∧ cd.N = d.w.length ∧
      ∀ i, i < cd.N → extractSlice cd i = d.slices i := by
  refine ⟨(loadDir d).1, ?_, rfl, rfl, rfl, ?_⟩
  · unfold load_calculated_data
    rw [hfs]
    rfl
  · intro i hi
    exact extractSlice_loadDir d i hi (hshape i hi).1 (hshape i hi).2

/-- Witness for C2 at the concrete filesystem `exFs` and directory `calc1`. -/
theorem load_roundtrip_witness :
    ∃ cd : CalcData, load_calculated_data exFs "calc1" = some (cd, exDir.spectrum) ∧
      cd.rows = exDir.dl.length ∧ cd.cols = exDir.l0.length ∧
      cd.N = exDir.w.length ∧
      ∀ i, i < cd.N → extractSlice cd i = exDir.slices i :=
  load_roundtrip exFs "calc1" exDir rfl (by decide)

/-- C4: for a name absent at the top level but present under the fallback root
`calculations`, loading succeeds and yields output identical to loading the
fully-qualified fallback path directly. -/
theorem load_fallback (fs : String → Option DirData) (name : String)
    (d : DirData) (h1 : fs name = none)
    (h2 : fs (pathJoin "calculations" name) = some d) :
    load_calculated_data fs name = some (loadDir d) ∧
    load_calculated_data fs name =
      load_calculated_data fs (pathJoin "calculations" name) := by
  unfold load_calculated_data
  rw [h1, h2]
  exact ⟨rfl, rfl⟩

/-- Witness for C4 at the concrete filesystem `exFsFallback` and name `auto`. -/
theorem load_fallback_witness :
    load_calculated_data exFsFallback "auto" = some (loadDir exDir) ∧
    load_calculated_data exFsFallback "auto" =
      load_calculated_data exFsFallback (pathJoin "calculations" "auto") :=
  load_fallback exFsFallback "auto" exDir rfl rfl

/-- C5: when the directory exists neither as given nor under the fallback
root, `load_calculated_data` reports the failure and returns no grid at all. -/
theorem load_not_found (fs : String → Option DirData) (name : String)
    (h1 : fs name = none) (h2 : fs (pathJoin "calculations" name) = none) :
    load_calculated_data fs name = none := by
  unfold load_calculated_data
  rw [h1, h2]

/-- Witness for C5 at the empty filesystem. -/
theorem load_not_found_witness :
    load_calculated_data exFsEmpty "nowhere" = none :=
  load_not_found exFsEmpty "nowhere" rfl rfl

/-- Counterexample to C1: on the strictly ascending axis `w = [0.5, 1.0]`,
the requested value `5` lies above the maximum, yet `np.searchsorted`
resolves to the insertion index `2 = len(w)`, not the last index
`len(w) - 1 = 1`. -/
theorem searchsorted_above_max_not_clamped :
    listMax [(1:ℚ)/2, 1] < 5 ∧
    searchsorted [(1:ℚ)/2, 1] 5 = 2 ∧
    searchsorted [(1:ℚ)/2, 1] 5 ≠ [(1:ℚ)/2, 1].length - 1 := by
  refine ⟨?_, ?_, ?_⟩
  · rw [listMax_cons_cons, show listMax [(1:ℚ)] = 1 from rfl, max_lt_iff]
    constructor <;> norm_num
  · norm_num [searchsorted, List.countP_cons]
  · norm_num [searchsorted, List.countP_cons]

/-- C1 (amended): for a strictly ascending tertiary axis `w`, a requested
value above the maximum of `w` resolves to the insertion index `len(w)`
(one past the last valid index, which subsequently faults when used to index
`w`), and a requested value below the minimum resolves to index `0`. -/
theorem searchsorted_out_of_range (w : List ℚ) (hs : w.Sorted (· < ·))
    (hne : w ≠ []) (v : ℚ) :
    (listMax w < v → searchsorted w v = w.length) ∧
    (v < listMin w → searchsorted w v = 0) :=
  ⟨searchsorted_gt_max w v, searchsorted_lt_min w v⟩

/-- Witness for the amended C1 at the concrete axis `[1, 2]`. -/
theorem searchsorted_out_of_range_witness :
    searchsorted [(1:ℚ), 2] 10 = [(1:ℚ), 2].length ∧
    searchsorted [(1:ℚ), 2] (-3) = 0 :=
  ⟨(searchsorted_out_of_range [(1:ℚ), 2] (by decide) (by decide) 10).1 (by decide),
   (searchsorted_out_of_range [(1:ℚ), 2] (by decide) (by decide) (-3)).2 (by decide)⟩

/-- Counterexample to C3: in the spec's concrete scenario (`w = [0.5, 1.0]`),
requesting tertiary value `5` does not select slice index `1`; it yields the
out-of-range insertion index `2`. -/
theorem scenario_request_5_counterexample :
    searchsorted (loadDir scenarioDir).1.w 5 ≠ 1 := by
  norm_num [scenarioDir, loadDir, searchsorted, List.countP_cons]

/-- C3 (amended): in the concrete scenario with axes `l0=[1,2,3]`,
`dl=[10,20]`, `w=[0.5,1.0]`, requesting tertiary value `0.7` selects slice
index `1` and requesting `-5` selects index `0`, as claimed; requesting `5`
yields the insertion index `2 = len(w)`, which is out of range (a subsequent
`IndexError`), not index `1`. -/
theorem scenario_slice_selection :
    (loadDir scenarioDir).1.w = [1/2, 1] ∧
    searchsorted (loadDir scenarioDir).1.w (7/10) = 1 ∧
    searchsorted (loadDir scenarioDir).1.w (-5) = 0 ∧
    searchsorted (loadDir scenarioDir).1.w 5 = 2 := by
  refine ⟨rfl, ?_, ?_, ?_⟩ <;>
    norm_num [scenarioDir, loadDir, searchsorted, List.countP_cons]

/-- C6: slice selection is monotonic in the requested value: on a strictly
ascending axis, `v1 ≤ v2` implies the selected index for `v1` is at most the
selected index for `v2`. -/
theorem searchsorted_mono (w : List ℚ) (hs : w.Sorted (· < ·)) (v1 v2 : ℚ)
    (h : v1 ≤ v2) : searchsorted w v1 ≤ searchsorted w v2 :=
  List.countP_mono_left fun x _ hx =>
    decide_eq_true (lt_of_lt_of_le (of_decide_eq_true hx) h)

/-- Witness for C6 at the concrete axis `[1, 2]` and values `1 ≤ 2`. -/
theorem searchsorted_mono_witness :
    searchsorted [(1:ℚ), 2] 1 ≤ searchsorted [(1:ℚ), 2] 2 :=
  searchsorted_mono [(1:ℚ), 2] (by decide) 1 2 (by decide)

/-- C8: when no tertiary display value is requested, the requested value
defaults to the maximum of the tertiary axis, and on a strictly ascending
axis this default selects the last slice index `len(w) - 1` — a valid index,
hence an exact computed sample. -/
theorem default_width_selects_last (w : List ℚ) (hs : w.Sorted (· < ·))
    (hne : w ≠ []) :
    display_width none w = listMax w ∧
    searchsorted w (display_width none w) = w.length - 1 ∧
    searchsorted w (display_width none w) < w.length := by
  refine ⟨rfl, searchsorted_of_listMax w hs hne, ?_⟩
  rw [show display_width none w = listMax w from rfl,
    searchsorted_of_listMax w hs hne]
  have hlen : w.length ≠ 0 := fun h => hne (List.length_eq_zero.mp h)
  omega

/-- Witness for C8 at the concrete axis `[1, 2]`. -/
theorem default_width_selects_last_witness :
    display_width none [(1:ℚ), 2] = listMax [(1:ℚ), 2] ∧
    searchsorted [(1:ℚ), 2] (display_width none [(1:ℚ), 2]) =
      [(1:ℚ), 2].length - 1 ∧
    searchsorted [(1:ℚ), 2] (display_width none [(1:ℚ), 2]) <
      [(1:ℚ), 2].length :=
  default_width_selects_last [(1:ℚ), 2] (by decide) (by decide)

/-- C7: the displayed slice is the grid slice at the selected tertiary index
divided by that slice's own maximum, so (given the slice's maximum is
positive) the maximum of the normalized slice equals `1`, and every
normalized value is nonnegative whenever every element of the source grid is
nonnegative. -/
theorem normalizeSlice_max_one (cd : CalcData) (wi : Nat)
    (hpos : 0 < matMax (extractSlice cd wi)) :
    matMax (normalizeSlice (extractSlice cd wi)) = 1 ∧
    ((∀ r c k, 0 ≤ cd.Delta r c k) →
      ∀ row ∈ normalizeSlice (extractSlice cd wi), ∀ x ∈ row, 0 ≤ x) := by
  constructor
  · show listMax ((normalizeSlice (extractSlice cd wi)).flatten) = 1
    rw [normalizeSlice, ← List.map_flatten, listMax_map_div _ hpos]
    exact div_self (ne_of_gt hpos)
  · intro hnn row hrow x hx
    simp only [normalizeSlice, List.mem_map] at hrow
    obtain ⟨row₀, hrow₀, rfl⟩ := hrow
    obtain ⟨y, hy, rfl⟩ := List.mem_map.mp hx
    simp only [extractSlice, List.mem_map] at hrow₀
    obtain ⟨r, hr, rfl⟩ := hrow₀
    obtain ⟨c, hc, rfl⟩ := List.mem_map.mp hy
    exact div_nonneg (hnn r c wi) hpos.le

/-- Witness for C7 at the loaded concrete directory `exDir`, slice `0`. -/
theorem normalizeSlice_max_one_witness :
    matMax (normalizeSlice (extractSlice (loadDir exDir).1 0)) = 1 ∧
    ((∀ r c k, 0 ≤ (loadDir exDir).1.Delta r c k) →
      ∀ row ∈ normalizeSlice (extractSlice (loadDir exDir).1 0),
        ∀ x ∈ row, 0 ≤ x) :=
  normalizeSlice_max_one (loadDir exDir).1 0 (by decide)

/-- Counterexample to C9: with `peak_count = 7` the peak index `6` is in
range of the plotting loop but `clrs[6]` is out of bounds — the color lookup
is not total and does not cycle. -/
theorem colorAt_seven_peaks_counterexample :
    6 < 7 ∧ colorAt 6 = none := by decide

/-- C9 (amended): the per-peak color lookup `clrs[j]` is total only for peak
indices below the palette size `len(clrs) = 6`; there is no cyclic reuse, and
a `peak_count` above `6` makes the plotting loop index out of bounds. -/
theorem colorAt_total_below_palette (j : Nat) (h : j < clrs.length) :
    (colorAt j).isSome = true := by
  have hall : ∀ k, k < clrs.length → (colorAt k).isSome = true := by decide
  exact hall j h

/-- Witness for the amended C9 at peak index `3`. -/
theorem colorAt_total_below_palette_witness :
    (colorAt 3).isSome = true :=
  colorAt_total_below_palette 3 (by decide)

/-- C10: the display normalizations divide by a data-dependent maximum with
no zero guard: on an all-zero selected slice the heatmap divisor
`np.max(Delta[:,:,wi])` is `0`, and on an all-zero intensity column the
spectrum divisor `np.max(spectrum[:,1])` is `0`. -/
theorem unguarded_normalization_divisors (cd : CalcData) (wi : Nat)
    (spectrum : Mat) (hzero : ∀ r c, cd.Delta r c wi = 0)
    (hspec : ∀ row ∈ spectrum, row.getD 1 0 = 0) :
    matMax (extractSlice cd wi) = 0 ∧ listMax (col1 spectrum) = 0 := by
  constructor
  · apply listMax_eq_zero
    intro x hx
    rw [List.mem_flatten] at hx
    obtain ⟨row, hrowL, hxrow⟩ := hx
    simp only [extractSlice, List.mem_map] at hrowL
    obtain ⟨r, hr, rfl⟩ := hrowL
    obtain ⟨c, hc, rfl⟩ := List.mem_map.mp hxrow
    exact hzero r c
  · apply listMax_eq_zero
    intro x hx
    obtain ⟨row, hrow, rfl⟩ := List.mem_map.mp hx
    exact hspec row hrow

/-- Witness for C10 at the all-zero grid `zeroCalc` and an all-zero-intensity
spectrum table. -/
theorem unguarded_normalization_divisors_witness :
    matMax (extractSlice zeroCalc 0) = 0 ∧
    listMax (col1 [[400, 0], [500, 0]]) = 0 :=
  unguarded_normalization_divisors zeroCalc 0 [[400, 0], [500, 0]]
    (fun _ _ => rfl) (by decide)
